import Mathlib

/-!
Shallow embedding of the stock/inventory data layer
(`src/lib/items.ts`, `src/lib/stocks.ts`, `src/lib/date.ts`).

The Firestore document store is modelled as an explicit `Store` state
(association lists keyed by document id).  Operations that `throw` in the
TypeScript source return `Except String`; a thrown error carries no updated
state, which models both "throw before the single write" and the abort of a
Firestore `runTransaction`.  JS numbers are modelled as `Rat` so that
`Number.isInteger` is a meaningful check; `String.prototype.trim` is modelled
by `jsTrim`; `serverTimestamp()` is modelled by the `now` field of the store.
-/

namespace Cupnudle

/-- JS whitespace test used by `String.prototype.trim`. -/
def isWs (c : Char) : Bool := c.isWhitespace

/-- Remove leading and trailing whitespace from a character list. -/
def trimList (l : List Char) : List Char :=
  ((l.dropWhile isWs).reverse.dropWhile isWs).reverse

/-- `String.prototype.trim`. -/
def jsTrim (s : String) : String := ⟨trimList s.data⟩

/-- JS truthiness of an optional string field (`undefined` and `""` are falsy). -/
def truthy : Option String → Bool
  | none => false
  | some s => s ≠ ""

/-- `Number.isInteger` on the rational model of JS numbers. -/
def jsIsInteger (q : Rat) : Bool := q.den == 1

/-- The decimal digit characters, as produced by JS number-to-string conversion. -/
def digitChar (n : Nat) : Char :=
  match n with
  | 0 => '0' | 1 => '1' | 2 => '2' | 3 => '3' | 4 => '4'
  | 5 => '5' | 6 => '6' | 7 => '7' | 8 => '8' | _ => '9'

/-- The value of a decimal digit character (the `\d` class of the date regex). -/
def digitVal (c : Char) : Option Nat :=
  if c = '0' then some 0
  else if c = '1' then some 1
  else if c = '2' then some 2
  else if c = '3' then some 3
  else if c = '4' then some 4
  else if c = '5' then some 5
  else if c = '6' then some 6
  else if c = '7' then some 7
  else if c = '8' then some 8
  else if c = '9' then some 9
  else none

/-- Fuel-bounded digit expansion; the fuel always exceeds the number of
digits when called through `natDigits`. -/
def natDigitsAux : Nat → Nat → List Char
  | 0, _ => []
  | fuel + 1, n =>
    if n < 10 then [digitChar n]
    else natDigitsAux fuel (n / 10) ++ [digitChar (n % 10)]

/-- Decimal digits of a natural number, most significant first (JS `String(n)`). -/
def natDigits (n : Nat) : List Char := natDigitsAux (n + 1) n

theorem natDigitsAux_fuel : ∀ (f1 f2 n : Nat), n < f1 → n < f2 →
    natDigitsAux f1 n = natDigitsAux f2 n := by
  intro f1
  induction f1 with
  | zero => intro f2 n h1 h2; omega
  | succ m1 ih =>
    intro f2 n h1 h2
    cases f2 with
    | zero => omega
    | succ m2 =>
      rw [natDigitsAux, natDigitsAux]
      by_cases hn : n < 10
      · rw [if_pos hn, if_pos hn]
      · rw [if_neg hn, if_neg hn]
        rw [ih m2 (n / 10) (by omega) (by omega)]

/-- One-step unfolding of `natDigits`. -/
theorem natDigits_step (n : Nat) :
    natDigits n =
      if n < 10 then [digitChar n]
      else natDigits (n / 10) ++ [digitChar (n % 10)] := by
  unfold natDigits
  rw [natDigitsAux]
  by_cases hn : n < 10
  · rw [if_pos hn, if_pos hn]
  · rw [if_neg hn, if_neg hn]
    rw [natDigitsAux_fuel n (n / 10 + 1) (n / 10) (by omega) (by omega)]

/-- JS `String(n)` for a non-negative integer. -/
def jsNatToString (n : Nat) : String := ⟨natDigits n⟩

/-- JS `String(n)` for a signed integer. -/
def jsIntToString (n : Int) : String :=
  if n < 0 then "-" ++ jsNatToString n.natAbs else jsNatToString n.toNat

/-- JS `padStart(2, '0')`. -/
def pad2 (s : String) : String :=
  if s.length < 2 then ⟨List.replicate (2 - s.length) '0' ++ s.data⟩ else s

/-!
## Date model (`src/lib/date.ts`)

A Firestore `Timestamp` produced by `dateInputToTimestamp` is local midnight
of a civil date, so it is modelled by the civil date triple that the JS `Date`
accessors (`getFullYear`, `getMonth() + 1`, `getDate`) recover from it.
-/

/-- Civil-date model of a Firestore `Timestamp` at local midnight. -/
structure Timestamp where
  year : Int
  month : Int
  day : Int
deriving DecidableEq, Repr

/-- Gregorian leap-year rule used by JS `Date`. -/
def isLeap (y : Int) : Bool := y % 4 == 0 && (y % 100 != 0 || y % 400 == 0)

/-- Number of days of month `m` (1-based) of year `y`. -/
def daysInMonth (y m : Int) : Int :=
  if m = 2 then (if isLeap y then 29 else 28)
  else if m = 4 ∨ m = 6 ∨ m = 9 ∨ m = 11 then 30
  else 31

/-- Day-of-month normalisation of JS `new Date(y, m-1, d)`: roll an
out-of-range day into the adjacent months.  The fuel bound is never reached
for the two-digit day fields this model receives. -/
def dayNorm : Nat → Int → Int → Int → Timestamp
  | 0, y, m, d => ⟨y, m, d⟩
  | fuel + 1, y, m, d =>
    if d < 1 then
      let y' := if m = 1 then y - 1 else y
      let m' := if m = 1 then 12 else m - 1
      dayNorm fuel y' m' (d + daysInMonth y' m')
    else if d > daysInMonth y m then
      let y' := if m = 12 then y + 1 else y
      let m' := if m = 12 then 1 else m + 1
      dayNorm fuel y' m' (d - daysInMonth y m)
    else ⟨y, m, d⟩

/-- JS `new Date(year, monthIndex, day)` at local midnight: the two-digit-year
rule maps 0–99 to 1900–1999, the month index is folded into the year, and the
day is normalised into the resulting month. -/
def jsMakeDate (year monthIndex day : Int) : Timestamp :=
  let y0 := if 0 ≤ year ∧ year ≤ 99 then 1900 + year else year
  let y1 := y0 + monthIndex.fdiv 12
  let m1 := monthIndex.emod 12 + 1
  dayNorm 12 y1 m1 day

/-- The `^\d{4}-\d{2}-\d{2}$` regex test combined with the `split('-')` /
`Number(...)` parse of `assertValidDateInput`. -/
def dateParts (s : String) : Option (Nat × Nat × Nat) :=
  match s.data with
  | [a, b, c, d, h1, e, f, h2, g, k] =>
    match h1, h2, digitVal a, digitVal b, digitVal c, digitVal d,
          digitVal e, digitVal f, digitVal g, digitVal k with
    | '-', '-', some va, some vb, some vc, some vd, some ve, some vf, some vg, some vk =>
      some (((va * 10 + vb) * 10 + vc) * 10 + vd, ve * 10 + vf, vg * 10 + vk)
    | _, _, _, _, _, _, _, _, _, _ => none
  | _ => none

/-- `assertValidDateInput` of `src/lib/date.ts`. -/
def assertValidDateInput (dateInput : String) : Except String Unit :=
  match dateParts dateInput with
  | none => .error "日付は YYYY-MM-DD 形式で入力してください。"
  | some (y, m, d) =>
    let candidate := jsMakeDate y ((m : Int) - 1) d
    if candidate.year = y ∧ candidate.month = m ∧ candidate.day = d then .ok ()
    else .error "存在しない日付です。正しい日付を入力してください。"

/-- `dateInputToTimestamp` of `src/lib/date.ts`. -/
def dateInputToTimestamp (dateInput : String) : Except String Timestamp :=
  match assertValidDateInput dateInput with
  | .error e => .error e
  | .ok _ =>
    match dateParts dateInput with
    | none => .error "日付は YYYY-MM-DD 形式で入力してください。"
    | some (y, m, d) => .ok (jsMakeDate y ((m : Int) - 1) d)

/-- `timestampToDateInput` of `src/lib/date.ts`. -/
def timestampToDateInput (t : Timestamp) : String :=
  jsIntToString t.year ++ "-" ++ pad2 (jsIntToString t.month) ++ "-" ++
    pad2 (jsIntToString t.day)

/-!
## Data model (`src/lib/items.ts`, `src/lib/stocks.ts`)
-/

/-- Stored document of the `items` collection. -/
structure ItemDoc where
  name : String
  imageUrl : Option String
  createdAt : Nat
deriving DecidableEq, Repr

/-- `Item`: an `ItemDoc` together with its document id. -/
structure Item where
  id : String
  name : String
  imageUrl : Option String
  createdAt : Nat
deriving DecidableEq, Repr

/-- Stored document of the `stocks` collection. -/
structure StockDoc where
  itemId : Option String
  itemNameSnapshot : String
  expiryDate : Timestamp
  quantity : Rat
  createdAt : Nat
  updatedAt : Nat
deriving DecidableEq, Repr

/-- `Stock`: a `StockDoc` together with its document id. -/
structure Stock where
  id : String
  itemId : Option String
  itemNameSnapshot : String
  expiryDate : Timestamp
  quantity : Rat
  createdAt : Nat
  updatedAt : Nat
deriving DecidableEq, Repr

/-- The Firestore state: both collections, the server clock used for
`serverTimestamp()`, and a counter supplying fresh document ids. -/
structure Store where
  items : List (String × ItemDoc)
  stocks : List (String × StockDoc)
  now : Nat
  nextId : Nat
deriving DecidableEq, Repr

/-- A fresh document id assigned by `addDoc`. -/
def freshId (s : Store) : String := "doc" ++ jsNatToString s.nextId

/-- `getDoc` on the `items` collection. -/
def lookupItem (s : Store) (id : String) : Option ItemDoc := s.items.lookup id

/-- `getDoc` on the `stocks` collection. -/
def lookupStock (s : Store) (id : String) : Option StockDoc := s.stocks.lookup id

/-- `updateDoc` / `transaction.update`: replace the document stored at `id`. -/
def replaceEntry {α : Type} (l : List (String × α)) (id : String) (v : α) :
    List (String × α) :=
  l.map fun p => if p.1 = id then (p.1, v) else p

/-- `deleteDoc`: remove the document stored at `id` (a no-op when absent). -/
def removeEntry {α : Type} (l : List (String × α)) (id : String) :
    List (String × α) :=
  l.filter fun p => p.1 ≠ id

/-- The state after an operation: the new store on success, the old store when
the operation threw (no partial effect). -/
def stateAfter (r : Except String Store) (s : Store) : Store :=
  match r with
  | .ok s' => s'
  | .error _ => s

/-!
## Item operations (`src/lib/items.ts`)
-/

/-- `toItem`: validate a raw `items` document and attach its id. -/
def toItem (id : String) (d : ItemDoc) : Except String Item :=
  if jsTrim d.name = "" then .error "itemsドキュメントのnameが不正です。"
  else .ok ⟨id, d.name, d.imageUrl, d.createdAt⟩

/-- `imageUrl?.trim() ? imageUrl.trim() : null` of `addItem`. -/
def normalizeImageUrl (imageUrl : Option String) : Option String :=
  match imageUrl with
  | some u => if jsTrim u ≠ "" then some (jsTrim u) else none
  | none => none

/-- `addItem`: validate the trimmed name, normalise the image URL, and create
the document with a fresh id. -/
def addItem (name : String) (imageUrl : Option String) (s : Store) :
    Except String (String × Store) :=
  if (jsTrim name).length = 0 then .error "品名は必須です。"
  else if (jsTrim name).length > 100 then .error "品名は100文字以内で入力してください。"
  else
    .ok (freshId s, { s with
      items := (freshId s, ⟨jsTrim name, normalizeImageUrl imageUrl, s.now⟩) :: s.items,
      nextId := s.nextId + 1 })

/-- Lexicographic comparison of character lists by code point; Firestore
orders string fields by UTF-8 bytes, which agrees with this order. -/
def charLeb : List Char → List Char → Bool
  | [], _ => true
  | a :: as, bl =>
    match bl with
    | [] => false
    | b :: bs =>
      if a < b then true
      else if b < a then false
      else charLeb as bs

/-- The string order used by Firestore `orderBy` on a string field. -/
def strLe (a b : String) : Prop := charLeb a.data b.data = true

instance strLeDec : ∀ a b, Decidable (strLe a b) :=
  fun a b => inferInstanceAs (Decidable (charLeb a.data b.data = true))

/-- Comparison used by the Firestore query `orderBy('name', 'asc')`. -/
def itemNameRel (a b : String × ItemDoc) : Prop := strLe a.2.name b.2.name

instance : DecidableRel itemNameRel :=
  fun a b => inferInstanceAs (Decidable (strLe a.2.name b.2.name))

/-- `snapshot.docs.map(...)` with a converter that can throw: the first
thrown error aborts the whole listing. -/
def mapExcept {α β : Type} (f : α → Except String β) : List α → Except String (List β)
  | [] => .ok []
  | a :: t =>
    match f a with
    | .error e => .error e
    | .ok b =>
      match mapExcept f t with
      | .error e => .error e
      | .ok bs => .ok (b :: bs)

/-- `listItems`: the `items` collection ordered by `name` ascending, each
document converted by `toItem`. -/
def listItems (s : Store) : Except String (List Item) :=
  mapExcept (fun p => toItem p.1 p.2) (List.insertionSort itemNameRel s.items)

/-- Field-level update input of `updateItem` (`undefined` fields are `none`;
a supplied `imageUrl` may itself be `null`). -/
structure UpdateItemInput where
  name : Option String := none
  imageUrl : Option (Option String) := none
deriving DecidableEq, Repr

/-- The `updates.name` block of `updateItem`: trim and validate a supplied
name into the payload. -/
def itemNamePayload (name? : Option String) : Except String (Option String) :=
  match name? with
  | none => .ok none
  | some n =>
    if (jsTrim n).length = 0 then .error "品名は空文字にできません。"
    else if (jsTrim n).length > 100 then .error "品名は100文字以内で入力してください。"
    else .ok (some (jsTrim n))

/-- The `updates.imageUrl` block of `updateItem`: normalise a supplied image
URL (or `null`) into the payload. -/
def itemImagePayload (imageUrl? : Option (Option String)) : Option (Option String) :=
  match imageUrl? with
  | none => none
  | some none => some none
  | some (some url) =>
    some (if (jsTrim url).length > 0 then some (jsTrim url) else none)

/-- `updateItem`: build the payload from the supplied fields, reject an empty
payload, and overwrite only the supplied fields. -/
def updateItem (id : String) (updates : UpdateItemInput) (s : Store) :
    Except String Store :=
  if jsTrim id = "" then .error "更新対象IDが空です。"
  else
    match itemNamePayload updates.name with
    | .error e => .error e
    | .ok payloadName =>
      if payloadName = none ∧ itemImagePayload updates.imageUrl = none then
        .error "更新対象フィールドがありません。"
      else
        match lookupItem s id with
        | none => .error "No document to update"
        | some d =>
          .ok { s with items := replaceEntry s.items id ({ d with name := payloadName.getD d.name, imageUrl := (itemImagePayload updates.imageUrl).getD d.imageUrl }) }

/-- `deleteItem`: unconditional delete (a no-op when the id is absent). -/
def deleteItem (id : String) (s : Store) : Except String Store :=
  if jsTrim id = "" then .error "削除対象IDが空です。"
  else .ok { s with items := removeEntry s.items id }

/-- `getItemById`: point lookup returning `none` when absent, throwing only on
an empty id or malformed stored data. -/
def getItemById (id : String) (s : Store) : Except String (Option Item) :=
  if jsTrim id = "" then .error "取得対象IDが空です。"
  else
    match lookupItem s id with
    | none => .ok none
    | some d =>
      match toItem id d with
      | .error e => .error e
      | .ok it => .ok (some it)

/-!
## Stock operations (`src/lib/stocks.ts`)
-/

/-- `toStock`: validate a raw `stocks` document and attach its id. -/
def toStock (id : String) (d : StockDoc) : Except String Stock :=
  if jsTrim d.itemNameSnapshot = "" then
    .error "stocksドキュメントのitemNameSnapshotが不正です。"
  else if ¬ jsIsInteger d.quantity ∨ d.quantity < 0 then
    .error "stocksドキュメントのquantityが不正です。"
  else .ok ⟨id, d.itemId, d.itemNameSnapshot, d.expiryDate, d.quantity,
            d.createdAt, d.updatedAt⟩

/-- The `AddStockItemRef` union: `itemId` or `itemName`, checked at runtime
with the `in` operator plus truthiness. -/
structure AddStockItemRef where
  itemId : Option String := none
  itemName : Option String := none
deriving DecidableEq, Repr

/-- The item-reference block of `addStock`: resolve `itemId` against the
master collection or validate the trimmed free-text `itemName`. -/
def resolveAddStockRef (itemRef : AddStockItemRef) (s : Store) :
    Except String (Option String × String) :=
  if truthy itemRef.itemId then
    if (jsTrim (itemRef.itemId.getD "")).length = 0 then .error "itemIdが空です。"
    else
      match getItemById (jsTrim (itemRef.itemId.getD "")) s with
      | .error e => .error e
      | .ok none => .error "指定されたitemIdの品名マスタが存在しません。"
      | .ok (some item) => .ok (some item.id, item.name)
  else if truthy itemRef.itemName then
    if (jsTrim (itemRef.itemName.getD "")).length = 0 then .error "itemNameは空文字にできません。"
    else if (jsTrim (itemRef.itemName.getD "")).length > 100 then
      .error "itemNameは100文字以内で入力してください。"
    else .ok (none, jsTrim (itemRef.itemName.getD ""))
  else .error "itemIdまたはitemNameのどちらかを指定してください。"

/-- `addStock`: validate the quantity, resolve the item reference (master
lookup for `itemId`, trimmed free text for `itemName`), convert the expiry
date, and create the document with a fresh id. -/
def addStock (itemRef : AddStockItemRef) (expiryDate : String) (quantity : Rat)
    (s : Store) : Except String (String × Store) :=
  if ¬ jsIsInteger quantity ∨ quantity < 0 then
    .error "個数は0以上の整数で入力してください。"
  else
    match resolveAddStockRef itemRef s with
    | .error e => .error e
    | .ok (resolvedItemId, itemNameSnapshot) =>
      match dateInputToTimestamp expiryDate with
      | .error e => .error e
      | .ok expiryTimestamp =>
        .ok (freshId s, { s with
          stocks := (freshId s, ⟨resolvedItemId, itemNameSnapshot, expiryTimestamp,
                          quantity, s.now, s.now⟩) :: s.stocks,
          nextId := s.nextId + 1 })

/-- Chronological key of a local-midnight timestamp: on normalised civil
dates this orders exactly as the underlying instant. -/
def tsKey (t : Timestamp) : Int := t.year * 1000 + t.month * 50 + t.day

/-- Comparison used by the Firestore query `orderBy('expiryDate', 'asc')`. -/
def stockExpiryRel (a b : String × StockDoc) : Prop :=
  tsKey a.2.expiryDate ≤ tsKey b.2.expiryDate

instance : DecidableRel stockExpiryRel :=
  fun a b => inferInstanceAs (Decidable (tsKey a.2.expiryDate ≤ tsKey b.2.expiryDate))

/-- `listStocks`: the `stocks` collection ordered by `expiryDate` ascending,
each document converted by `toStock`. -/
def listStocks (s : Store) : Except String (List Stock) :=
  mapExcept (fun p => toStock p.1 p.2) (List.insertionSort stockExpiryRel s.stocks)

/-- Field-level update input of `updateStock`. -/
structure UpdateStockInput where
  itemId : Option String := none
  itemName : Option String := none
  expiryDate : Option String := none
  quantity : Option Rat := none
deriving DecidableEq, Repr

/-- The `updates.itemId` block of `updateStock`: resolve a supplied item id
against the master collection; the payload pairs the `itemId` field with the
`itemNameSnapshot` field. -/
def stockPayloadItemId (raw? : Option String) (s : Store) :
    Except String (Option (Option String) × Option String) :=
  match raw? with
  | none => .ok (none, none)
  | some raw =>
    if (jsTrim raw).length = 0 then .error "itemIdは空文字にできません。"
    else
      match getItemById (jsTrim raw) s with
      | .error e => .error e
      | .ok none => .error "指定されたitemIdの品名マスタが存在しません。"
      | .ok (some item) => .ok (some (some item.id), some item.name)

/-- The `updates.itemName` block of `updateStock`: a supplied free-text name
overwrites the payload built by the `itemId` block. -/
def stockPayloadItemName (raw? : Option String)
    (p1 : Option (Option String) × Option String) :
    Except String (Option (Option String) × Option String) :=
  match raw? with
  | none => .ok p1
  | some raw =>
    if (jsTrim raw).length = 0 then .error "itemNameは空文字にできません。"
    else if (jsTrim raw).length > 100 then .error "itemNameは100文字以内で入力してください。"
    else .ok (some none, some (jsTrim raw))

/-- The `updates.expiryDate` block of `updateStock`: convert a supplied date
string. -/
def stockPayloadExpiry (raw? : Option String) : Except String (Option Timestamp) :=
  match raw? with
  | none => .ok none
  | some ds =>
    match dateInputToTimestamp ds with
    | .error e => .error e
    | .ok t => .ok (some t)

/-- The `updates.quantity` block of `updateStock`: validate a supplied
quantity. -/
def stockPayloadQuantity (raw? : Option Rat) : Except String (Option Rat) :=
  match raw? with
  | none => .ok none
  | some q =>
    if ¬ jsIsInteger q ∨ q < 0 then .error "個数は0以上の整数で入力してください。"
    else .ok (some q)

/-- `updateStock`: re-resolve the snapshot when `itemId` or `itemName` is
supplied (the `itemName` branch runs second and overwrites the payload),
convert and validate the other supplied fields, reject an empty payload, and
write the payload together with a refreshed `updatedAt`. -/
def updateStock (id : String) (updates : UpdateStockInput) (s : Store) :
    Except String Store :=
  if jsTrim id = "" then .error "更新対象IDが空です。"
  else
    match stockPayloadItemId updates.itemId s with
    | .error e => .error e
    | .ok p1 =>
      match stockPayloadItemName updates.itemName p1 with
      | .error e => .error e
      | .ok p2 =>
        match stockPayloadExpiry updates.expiryDate with
        | .error e => .error e
        | .ok pExp =>
          match stockPayloadQuantity updates.quantity with
          | .error e => .error e
          | .ok pQ =>
            if p2.1 = none ∧ p2.2 = none ∧ pExp = none ∧ pQ = none then
              .error "更新対象フィールドがありません。"
            else
              match lookupStock s id with
              | none => .error "No document to update"
              | some d =>
                .ok { s with stocks := replaceEntry s.stocks id ({ d with itemId := p2.1.getD d.itemId, itemNameSnapshot := p2.2.getD d.itemNameSnapshot, expiryDate := pExp.getD d.expiryDate, quantity := pQ.getD d.quantity, updatedAt := s.now }) }

/-- `deleteStock`: unconditional delete (a no-op when the id is absent). -/
def deleteStock (id : String) (s : Store) : Except String Store :=
  if jsTrim id = "" then .error "削除対象IDが空です。"
  else .ok { s with stocks := removeEntry s.stocks id }

/-- `incrementStock`: inside one transaction, read the current quantity,
refuse a result below zero, and otherwise write `quantity + delta` together
with a refreshed `updatedAt`.  A thrown error aborts the transaction, so the
error branches return no updated state. -/
def incrementStock (id : String) (delta : Rat) (s : Store) : Except String Store :=
  if jsTrim id = "" then .error "更新対象IDが空です。"
  else if ¬ jsIsInteger delta ∨ delta = 0 then .error "deltaは0以外の整数で指定してください。"
  else
    match lookupStock s id with
    | none => .error "更新対象の在庫が存在しません。"
    | some d =>
      if ¬ jsIsInteger d.quantity ∨ d.quantity < 0 then
        .error "在庫データのquantityが不正です。"
      else if d.quantity + delta < 0 then .error "在庫数を0未満にはできません。"
      else .ok { s with stocks := replaceEntry s.stocks id ({ d with quantity := d.quantity + delta, updatedAt := s.now }) }

/-- `getStockById`: point lookup returning `none` when absent, throwing only
on an empty id or malformed stored data. -/
def getStockById (id : String) (s : Store) : Except String (Option Stock) :=
  if jsTrim id = "" then .error "取得対象IDが空です。"
  else
    match lookupStock s id with
    | none => .ok none
    | some d =>
      match toStock id d with
      | .error e => .error e
      | .ok st => .ok (some st)

/-- A sequence of `incrementStock` calls on the same stock id, stopping at the
first failure. -/
def applyDeltas (id : String) (ds : List Rat) (s : Store) : Except String Store :=
  match ds with
  | [] => .ok s
  | d :: rest =>
    match incrementStock id d s with
    | .error e => .error e
    | .ok s' => applyDeltas id rest s'

/-!
## Helper lemmas: association lists
-/

theorem lookup_mem {α : Type} {l : List (String × α)} {a : String} {b : α}
    (h : List.lookup a l = some b) : (a, b) ∈ l := by
  induction l with
  | nil => simp at h
  | cons p t ih =>
    obtain ⟨k, v⟩ := p
    rw [List.lookup_cons] at h
    by_cases hk : a = k
    · subst hk
      simp only [beq_self_eq_true] at h
      cases h
      exact List.mem_cons_self _ _
    · have : (a == k) = false := beq_false_of_ne hk
      rw [this] at h
      exact List.mem_cons_of_mem _ (ih h)

theorem lookup_replaceEntry {α : Type} (l : List (String × α)) (id : String) (v : α) :
    List.lookup id (replaceEntry l id v) = (List.lookup id l).map fun _ => v := by
  induction l with
  | nil => simp [replaceEntry]
  | cons p t ih =>
    obtain ⟨k, w⟩ := p
    by_cases hk : k = id
    · subst hk
      simp [replaceEntry, List.lookup_cons]
    · have hne : (id == k) = false := beq_false_of_ne (Ne.symm hk)
      simp only [replaceEntry, List.map_cons, if_neg hk, List.lookup_cons, hne]
      exact ih

theorem lookup_removeEntry {α : Type} (l : List (String × α)) (id : String) :
    List.lookup id (removeEntry l id) = none := by
  induction l with
  | nil => rfl
  | cons p t ih =>
    rw [removeEntry, List.filter_cons]
    by_cases hk : p.1 = id
    · rw [if_neg (by simp [hk])]
      exact ih
    · rw [if_pos (by simp [hk])]
      rw [List.lookup_cons]
      have hne : (id == p.1) = false := beq_false_of_ne (Ne.symm hk)
      rw [hne]
      exact ih

theorem mem_replaceEntry {α : Type} {l : List (String × α)} {id : String} {v : α}
    {p : String × α} (h : p ∈ replaceEntry l id v) : p.2 = v ∨ p ∈ l := by
  unfold replaceEntry at h
  obtain ⟨q, hq, hpq⟩ := List.mem_map.mp h
  by_cases hk : q.1 = id
  · left
    rw [if_pos hk] at hpq
    rw [← hpq]
  · right
    rw [if_neg hk] at hpq
    rw [← hpq]
    exact hq

/-!
## Helper lemmas: trimming
-/

theorem dropWhile_head_false {α : Type} {p : α → Bool} :
    ∀ {l : List α} {x : α} {xs : List α}, l.dropWhile p = x :: xs → p x = false := by
  intro l
  induction l with
  | nil => intro x xs h; simp at h
  | cons a t ih =>
    intro x xs h
    by_cases ha : p a
    · rw [List.dropWhile_cons_of_pos ha] at h
      exact ih h
    · rw [List.dropWhile_cons_of_neg ha] at h
      cases h
      simpa using ha

theorem dropWhile_eq_self_of_head {α : Type} {p : α → Bool} {l : List α}
    (h : ∀ x xs, l = x :: xs → p x = false) : l.dropWhile p = l := by
  cases l with
  | nil => rfl
  | cons a t =>
    have := h a t rfl
    simp [List.dropWhile_cons, this]

theorem getLast?_dropWhile {α : Type} {p : α → Bool} :
    ∀ {l r : List α}, l.dropWhile p = r → r ≠ [] → r.getLast? = l.getLast? := by
  intro l
  induction l with
  | nil =>
    intro r h hne
    rw [List.dropWhile_nil] at h
    exact absurd h.symm hne
  | cons a t ih =>
    intro r h hne
    by_cases ha : p a
    · rw [List.dropWhile_cons_of_pos ha] at h
      have ht : t ≠ [] := by
        intro h0
        rw [h0, List.dropWhile_nil] at h
        exact hne h.symm
      rw [ih h hne]
      cases t with
      | nil => exact absurd rfl ht
      | cons b u => rw [List.getLast?_cons_cons]
    · rw [List.dropWhile_cons_of_neg ha] at h
      rw [← h]

theorem trimList_idem (l : List Char) : trimList (trimList l) = trimList l := by
  unfold trimList
  have hstep : ∀ m : List Char,
      ((m.dropWhile isWs).reverse.dropWhile isWs).reverse.dropWhile isWs =
        ((m.dropWhile isWs).reverse.dropWhile isWs).reverse := by
    intro m
    apply dropWhile_eq_self_of_head
    intro x xs hx
    have hne : (m.dropWhile isWs).reverse.dropWhile isWs ≠ [] := by
      intro h0
      rw [h0] at hx
      simp at hx
    have h1 : ((m.dropWhile isWs).reverse.dropWhile isWs).getLast? = some x := by
      rw [← List.head?_reverse, hx]
      rfl
    have h2 : ((m.dropWhile isWs).reverse.dropWhile isWs).getLast? =
        (m.dropWhile isWs).reverse.getLast? := getLast?_dropWhile rfl hne
    rw [h2, List.getLast?_reverse] at h1
    cases hd : m.dropWhile isWs with
    | nil => rw [hd] at h1; simp at h1
    | cons y ys =>
      rw [hd] at h1
      simp only [List.head?_cons, Option.some_inj] at h1
      rw [← h1]
      exact dropWhile_head_false hd
  rw [hstep l]
  rw [List.reverse_reverse]
  have hr : ((l.dropWhile isWs).reverse.dropWhile isWs).dropWhile isWs =
      (l.dropWhile isWs).reverse.dropWhile isWs := by
    apply dropWhile_eq_self_of_head
    intro x xs hx
    exact dropWhile_head_false hx
  rw [hr]

theorem jsTrim_idem (s : String) : jsTrim (jsTrim s) = jsTrim s := by
  unfold jsTrim
  rw [trimList_idem]

/-!
## Helper lemmas: integer-valued rationals
-/

theorem jsIsInteger_iff {q : Rat} : jsIsInteger q = true ↔ q.den = 1 := by
  simp [jsIsInteger]

theorem jsIsInteger_add {a b : Rat} (ha : jsIsInteger a) (hb : jsIsInteger b) :
    jsIsInteger (a + b) := by
  rw [jsIsInteger_iff] at ha hb ⊢
  rw [← Rat.coe_int_num_of_den_eq_one ha, ← Rat.coe_int_num_of_den_eq_one hb,
    ← Int.cast_add]
  exact Rat.den_intCast _

/-!
## Inversion of a successful `incrementStock`
-/

theorem incrementStock_ok {id : String} {delta : Rat} {s s' : Store}
    (h : incrementStock id delta s = .ok s') :
    ∃ d, lookupStock s id = some d ∧
      s'.stocks = replaceEntry s.stocks id
        ({ d with quantity := d.quantity + delta, updatedAt := s.now }) ∧
      s'.items = s.items ∧ s'.now = s.now ∧ s'.nextId = s.nextId ∧
      jsIsInteger delta ∧ jsIsInteger d.quantity ∧ 0 ≤ d.quantity + delta := by
  unfold incrementStock at h
  split at h
  · exact absurd h (by simp)
  · split at h
    · exact absurd h (by simp)
    · rename_i hδ
      split at h
      · exact absurd h (by simp)
      · rename_i d hd
        split at h
        · exact absurd h (by simp)
        · rename_i hq
          split at h
          · exact absurd h (by simp)
          · rename_i hneg
            cases h
            push_neg at hδ hq hneg
            exact ⟨d, hd, rfl, rfl, rfl, rfl, hδ.1, hq.1, hneg⟩

/-!
## C1: refused negative result leaves the record unchanged
-/

/-- Claim C1: for a stored stock record with a valid quantity, a non-zero
integer delta whose application would drive the quantity below zero makes
`incrementStock` abort with the invariant-violation error, and the stored
record (quantity and `updatedAt` included) is unchanged — the error branch of
the transaction commits nothing. -/
theorem incrementStock_negative_aborts (s : Store) (id : String) (delta : Rat)
    (d : StockDoc)
    (hid : jsTrim id ≠ "")
    (hdint : jsIsInteger delta) (hdz : delta ≠ 0)
    (hlook : lookupStock s id = some d)
    (hqint : jsIsInteger d.quantity) (hq0 : 0 ≤ d.quantity)
    (hneg : d.quantity + delta < 0) :
    incrementStock id delta s = .error "在庫数を0未満にはできません。" ∧
      lookupStock (stateAfter (incrementStock id delta s) s) id = some d := by
  have hmain : incrementStock id delta s = .error "在庫数を0未満にはできません。" := by
    unfold incrementStock
    rw [if_neg hid]
    rw [if_neg (by push_neg; exact ⟨hdint, hdz⟩)]
    rw [hlook]
    simp only []
    rw [if_neg (by push_neg; exact ⟨hqint, hq0⟩)]
    rw [if_pos hneg]
  refine ⟨hmain, ?_⟩
  rw [hmain]
  exact hlook

/-- Decidable equality of `Except` results, used to evaluate operations on
concrete stores. -/
instance exceptDecEq {ε α : Type} [DecidableEq ε] [DecidableEq α] :
    DecidableEq (Except ε α)
  | .error x, .error y =>
    if h : x = y then .isTrue (by rw [h])
    else .isFalse (by intro hc; cases hc; exact h rfl)
  | .error _, .ok _ => .isFalse (by intro hc; cases hc)
  | .ok _, .error _ => .isFalse (by intro hc; cases hc)
  | .ok x, .ok y =>
    if h : x = y then .isTrue (by rw [h])
    else .isFalse (by intro hc; cases hc; exact h rfl)

def wStore : Store :=
  ⟨[], [("s1", ⟨none, "Milk", ⟨2026, 2, 7⟩, 1, 0, 0⟩)], 3, 0⟩

def wDoc : StockDoc := ⟨none, "Milk", ⟨2026, 2, 7⟩, 1, 0, 0⟩

unseal Rat.add in
theorem incrementStock_negative_aborts_witness :
    (jsTrim "s1" ≠ "" ∧ jsIsInteger (-5 : Rat) ∧ (-5 : Rat) ≠ 0 ∧
      lookupStock wStore "s1" = some wDoc ∧ jsIsInteger wDoc.quantity ∧
      0 ≤ wDoc.quantity ∧ wDoc.quantity + (-5 : Rat) < 0) ∧
    incrementStock "s1" (-5 : Rat) wStore = .error "在庫数を0未満にはできません。" :=
  ⟨⟨by decide, by decide, by decide, by decide, by decide, by decide, by decide⟩,
    (incrementStock_negative_aborts wStore "s1" (-5 : Rat) wDoc (by decide) (by decide)
      (by decide) (by decide) (by decide) (by decide) (by decide)).1⟩

/-!
## C4: a successful sequence of deltas adds up
-/

/-- Claim C4: applying a sequence of `incrementStock` deltas to the same
stock id, when every call succeeds, yields a final stored quantity equal to
the initial quantity plus the sum of the deltas. -/
theorem applyDeltas_sum (id : String) :
    ∀ (ds : List Rat) (s s' : Store) (d0 : StockDoc),
      lookupStock s id = some d0 → applyDeltas id ds s = .ok s' →
      ∃ d1, lookupStock s' id = some d1 ∧
        d1.quantity = d0.quantity + ds.sum := by
  intro ds
  induction ds with
  | nil =>
    intro s s' d0 hl h
    cases h
    exact ⟨d0, hl, by simp⟩
  | cons dh rest ih =>
    intro s s' d0 hl h
    unfold applyDeltas at h
    split at h
    · exact absurd h (by simp)
    · rename_i s1 hstep
      obtain ⟨d, hd, hstocks, _, hnow, _, _, _, _⟩ := incrementStock_ok hstep
      rw [hl] at hd
      cases hd
      have hl1 : lookupStock s1 id =
          some ({ d0 with quantity := d0.quantity + dh, updatedAt := s.now }) := by
        unfold lookupStock
        rw [hstocks, lookup_replaceEntry]
        unfold lookupStock at hl
        rw [hl]
        rfl
      obtain ⟨d1, h1, hq⟩ := ih s1 s' _ hl1 h
      refine ⟨d1, h1, ?_⟩
      rw [hq, List.sum_cons]
      simp only []
      ring

def wStoreA : Store :=
  ⟨[], [("s1", ⟨none, "Milk", ⟨2026, 2, 7⟩, 6, 0, 3⟩)], 3, 0⟩

unseal Rat.add in
theorem applyDeltas_sum_witness :
    (lookupStock wStore "s1" = some wDoc ∧
      applyDeltas "s1" [3, -2, 4] wStore = .ok wStoreA) ∧
    ∃ d1, lookupStock wStoreA "s1" = some d1 ∧
      d1.quantity = wDoc.quantity + ([3, -2, 4] : List Rat).sum :=
  ⟨⟨by decide, by decide⟩,
    applyDeltas_sum "s1" [3, -2, 4] wStore wStoreA wDoc (by decide) (by decide)⟩

/-!
## C8: deleting an item leaves stocks untouched and later lookups absent
-/

/-- Claim C8: a successful `deleteItem` leaves every stock record (all fields
included) unchanged, and a subsequent `getItemById` on the deleted id returns
absent (`none`) instead of throwing. -/
theorem deleteItem_frame (s s' : Store) (id : String)
    (h : deleteItem id s = .ok s') :
    s'.stocks = s.stocks ∧ getItemById id s' = .ok none := by
  unfold deleteItem at h
  split at h
  · exact absurd h (by simp)
  · rename_i hid
    cases h
    refine ⟨rfl, ?_⟩
    unfold getItemById
    rw [if_neg hid]
    have hl : lookupItem { s with items := removeEntry s.items id } id = none := by
      unfold lookupItem
      exact lookup_removeEntry _ _
    rw [hl]

def wStoreI : Store :=
  ⟨[("i1", ⟨"Milk", none, 0⟩)],
   [("s1", ⟨some "i1", "Milk", ⟨2026, 2, 7⟩, 1, 0, 0⟩)], 3, 0⟩

def wStoreIDel : Store :=
  ⟨[], [("s1", ⟨some "i1", "Milk", ⟨2026, 2, 7⟩, 1, 0, 0⟩)], 3, 0⟩

theorem deleteItem_frame_witness :
    deleteItem "i1" wStoreI = .ok wStoreIDel ∧
      (wStoreIDel.stocks = wStoreI.stocks ∧ getItemById "i1" wStoreIDel = .ok none) :=
  ⟨by decide, deleteItem_frame wStoreI wStoreIDel "i1" (by decide)⟩

/-!
## C5: an update with no supplied fields is rejected
-/

/-- Claim C5: calling `updateItem` or `updateStock` with an updates object
that supplies no updatable field throws a validation error, for every id and
store state; the error branch performs no write. -/
theorem update_with_no_fields_errors (idI idS : String) (sI sS : Store) :
    (∃ e, updateItem idI ⟨none, none⟩ sI = .error e) ∧
    (∃ e, updateStock idS ⟨none, none, none, none⟩ sS = .error e) := by
  constructor
  · unfold updateItem
    split
    · exact ⟨_, rfl⟩
    · exact ⟨_, rfl⟩
  · unfold updateStock
    split
    · exact ⟨_, rfl⟩
    · exact ⟨_, rfl⟩

/-!
## Inversion of a successful `updateStock` and its stages
-/

theorem updateStock_ok_inv {id : String} {u : UpdateStockInput} {s s' : Store}
    (h : updateStock id u s = .ok s') :
    ∃ p2 pExp pQ d,
      (∃ p1, stockPayloadItemId u.itemId s = .ok p1 ∧
        stockPayloadItemName u.itemName p1 = .ok p2) ∧
      stockPayloadExpiry u.expiryDate = .ok pExp ∧
      stockPayloadQuantity u.quantity = .ok pQ ∧
      lookupStock s id = some d ∧
      s' = { s with stocks := replaceEntry s.stocks id ({ d with
        itemId := p2.1.getD d.itemId,
        itemNameSnapshot := p2.2.getD d.itemNameSnapshot,
        expiryDate := pExp.getD d.expiryDate,
        quantity := pQ.getD d.quantity,
        updatedAt := s.now }) } := by
  unfold updateStock at h
  split at h
  · exact absurd h (by simp)
  · split at h
    · exact absurd h (by simp)
    · rename_i p1 h1
      split at h
      · exact absurd h (by simp)
      · rename_i p2 h2
        split at h
        · exact absurd h (by simp)
        · rename_i pExp h3
          split at h
          · exact absurd h (by simp)
          · rename_i pQ h4
            split at h
            · exact absurd h (by simp)
            · split at h
              · exact absurd h (by simp)
              · rename_i d hd
                cases h
                exact ⟨p2, pExp, pQ, d, ⟨p1, h1, h2⟩, h3, h4, hd, rfl⟩

theorem stockPayloadQuantity_ok {raw? : Option Rat} {pQ : Option Rat}
    (h : stockPayloadQuantity raw? = .ok pQ) :
    pQ = none ∨ ∃ q, raw? = some q ∧ pQ = some q ∧ jsIsInteger q ∧ 0 ≤ q := by
  unfold stockPayloadQuantity at h
  split at h
  · cases h
    exact Or.inl rfl
  · rename_i q
    split at h
    · exact absurd h (by simp)
    · rename_i hcond
      push_neg at hcond
      cases h
      exact Or.inr ⟨q, rfl, rfl, hcond.1, hcond.2⟩

/-!
## C3: stored quantities are always non-negative integers
-/

/-- The quantity invariant of the `stocks` collection: every stored quantity
is a non-negative integer. -/
@[reducible] def quantInv (s : Store) : Prop :=
  ∀ p ∈ s.stocks, jsIsInteger p.2.quantity ∧ 0 ≤ p.2.quantity

/-- Claim C3: `addStock` and `updateStock` reject a negative or non-integer
quantity before any store write, and all three quantity-writing operations
(`addStock`, `updateStock`, `incrementStock`) preserve the invariant that
every stored quantity is a non-negative integer. -/
theorem stock_quantity_invariant (s : Store) :
    (∀ ref date q, (¬ jsIsInteger q ∨ q < 0) →
        addStock ref date q s = .error "個数は0以上の整数で入力してください。") ∧
    (∀ id u q, u.quantity = some q → (¬ jsIsInteger q ∨ q < 0) →
        ∃ e, updateStock id u s = .error e) ∧
    (∀ ref date q r, quantInv s → addStock ref date q s = .ok r → quantInv r.2) ∧
    (∀ id u s', quantInv s → updateStock id u s = .ok s' → quantInv s') ∧
    (∀ id delta s', quantInv s → incrementStock id delta s = .ok s' → quantInv s') := by
  refine ⟨?_, ?_, ?_, ?_, ?_⟩
  · intro ref date q h
    unfold addStock
    rw [if_pos h]
  · intro id u q hq hbad
    cases hres : updateStock id u s with
    | error e => exact ⟨e, rfl⟩
    | ok s' =>
      exfalso
      obtain ⟨p2, pExp, pQ, d, _, _, h4, _, _⟩ := updateStock_ok_inv hres
      rw [hq] at h4
      unfold stockPayloadQuantity at h4
      simp only [] at h4
      rw [if_pos hbad] at h4
      exact absurd h4 (by simp)
  · intro ref date q r hinv hok
    unfold addStock at hok
    split at hok
    · exact absurd hok (by simp)
    · rename_i hcond
      push_neg at hcond
      split at hok
      · exact absurd hok (by simp)
      · split at hok
        · exact absurd hok (by simp)
        · cases hok
          intro p hp
          rcases List.mem_cons.mp hp with hnew | hold
          · rw [hnew]
            exact ⟨hcond.1, hcond.2⟩
          · exact hinv p hold
  · intro id u s' hinv hok
    obtain ⟨p2, pExp, pQ, d, _, _, h4, hd, rfl⟩ := updateStock_ok_inv hok
    intro p hp
    simp only [] at hp
    rcases mem_replaceEntry hp with hpd | hps
    · rw [hpd]
      rcases stockPayloadQuantity_ok h4 with hnone | ⟨q, _, hpq, hint, hq0⟩
      · subst hnone
        simpa [Option.getD] using hinv (id, d) (lookup_mem hd)
      · subst hpq
        simpa [Option.getD] using ⟨hint, hq0⟩
    · exact hinv p hps
  · intro id delta s' hinv hok
    obtain ⟨d, hd, hstocks, _, _, _, hδi, hqi, hge⟩ := incrementStock_ok hok
    intro p hp
    rw [hstocks] at hp
    rcases mem_replaceEntry hp with hpd | hps
    · rw [hpd]
      exact ⟨jsIsInteger_add hqi hδi, hge⟩
    · exact hinv p hps

def wStoreC3 : Store :=
  ⟨[], [("s1", ⟨none, "Tea", ⟨2026, 2, 7⟩, 2, 0, 0⟩)], 4, 0⟩

def wStoreC3A : Store :=
  ⟨[], [("s1", ⟨none, "Tea", ⟨2026, 2, 7⟩, 5, 0, 4⟩)], 4, 0⟩

unseal Rat.add in
theorem stock_quantity_invariant_witness :
    ((¬ jsIsInteger (-1 : Rat) ∨ (-1 : Rat) < 0) ∧
      addStock ⟨none, some "Tea"⟩ "2026-02-07" (-1 : Rat) wStoreC3 =
        .error "個数は0以上の整数で入力してください。") ∧
    (((⟨none, none, none, some (-2 : Rat)⟩ : UpdateStockInput).quantity =
        some (-2 : Rat) ∧ (¬ jsIsInteger (-2 : Rat) ∨ (-2 : Rat) < 0)) ∧
      (∃ e, updateStock "s1" ⟨none, none, none, some (-2 : Rat)⟩ wStoreC3 = .error e)) ∧
    ((quantInv wStoreC3 ∧ incrementStock "s1" (3 : Rat) wStoreC3 = .ok wStoreC3A) ∧
      quantInv wStoreC3A) :=
  ⟨⟨by decide,
      (stock_quantity_invariant wStoreC3).1 ⟨none, some "Tea"⟩ "2026-02-07" (-1 : Rat)
        (by decide)⟩,
    ⟨⟨by decide, by decide⟩,
      (stock_quantity_invariant wStoreC3).2.1 "s1" ⟨none, none, none, some (-2 : Rat)⟩
        (-2 : Rat) (by decide) (by decide)⟩,
    ⟨⟨by decide, by decide⟩,
      (stock_quantity_invariant wStoreC3).2.2.2.2 "s1" (3 : Rat) wStoreC3A
        (by decide) (by decide)⟩⟩

/-!
## C9: a supplied `itemName` overrides a supplied `itemId`, which is still
resolved first
-/

/-- Claim C9: when `updateStock` receives both `itemId` and `itemName`, the
supplied `itemId` is resolved first and an unresolvable id fails the call
with the reference error; when it resolves, the `itemName` branch wins and
the written record has `itemId = null` and the trimmed `itemName` as
snapshot. -/
theorem updateStock_itemName_precedence (s : Store) (id iid nm : String) :
    (jsTrim id ≠ "" → (jsTrim iid).length ≠ 0 →
      getItemById (jsTrim iid) s = .ok none →
      updateStock id ⟨some iid, some nm, none, none⟩ s =
        .error "指定されたitemIdの品名マスタが存在しません。") ∧
    (∀ item d, jsTrim id ≠ "" →
      getItemById (jsTrim iid) s = .ok (some item) →
      (jsTrim nm).length ≠ 0 → (jsTrim nm).length ≤ 100 →
      lookupStock s id = some d →
      updateStock id ⟨some iid, some nm, none, none⟩ s =
        .ok { s with stocks := replaceEntry s.stocks id ({ d with
          itemId := none, itemNameSnapshot := jsTrim nm, updatedAt := s.now }) }) := by
  constructor
  · intro hid hlen hgi
    have h1 : stockPayloadItemId (some iid) s =
        .error "指定されたitemIdの品名マスタが存在しません。" := by
      simp only [stockPayloadItemId]
      rw [if_neg hlen, hgi]
    unfold updateStock
    rw [if_neg hid]
    simp only [h1]
  · intro item d hid hgi hnm1 hnm2 hld
    have hlen : (jsTrim iid).length ≠ 0 := by
      intro h0
      have he : jsTrim iid = "" := by
        cases hc : jsTrim iid with
        | mk l =>
          rw [hc] at h0
          cases l with
          | nil => rfl
          | cons c cs => simp [String.length] at h0
      rw [he] at hgi
      have hempty : getItemById "" s = .error "取得対象IDが空です。" := by
        unfold getItemById
        rw [if_pos (show jsTrim "" = "" from rfl)]
      rw [hempty] at hgi
      exact absurd hgi (by simp)
    have h1 : stockPayloadItemId (some iid) s =
        .ok (some (some item.id), some item.name) := by
      simp only [stockPayloadItemId]
      rw [if_neg hlen, hgi]
    have h2 : stockPayloadItemName (some nm) (some (some item.id), some item.name) =
        .ok (some none, some (jsTrim nm)) := by
      simp only [stockPayloadItemName]
      rw [if_neg hnm1, if_neg (by omega)]
    unfold updateStock
    rw [if_neg hid]
    simp only [h1, h2, stockPayloadExpiry, stockPayloadQuantity]
    rw [if_neg (by simp)]
    rw [hld]
    simp [Option.getD]

def wStoreC9 : Store :=
  ⟨[("i1", ⟨"Green Tea", none, 0⟩)],
   [("s1", ⟨none, "Old", ⟨2026, 2, 7⟩, 1, 0, 0⟩)], 6, 0⟩

def wStoreC9A : Store :=
  ⟨[("i1", ⟨"Green Tea", none, 0⟩)],
   [("s1", ⟨none, "Cup", ⟨2026, 2, 7⟩, 1, 0, 6⟩)], 6, 0⟩

theorem updateStock_itemName_precedence_witness :
    ((jsTrim "s1" ≠ "" ∧ (jsTrim "zz").length ≠ 0 ∧
        getItemById (jsTrim "zz") wStoreC9 = .ok none) ∧
      updateStock "s1" ⟨some "zz", some " Cup ", none, none⟩ wStoreC9 =
        .error "指定されたitemIdの品名マスタが存在しません。") ∧
    ((getItemById (jsTrim "i1") wStoreC9 = .ok (some ⟨"i1", "Green Tea", none, 0⟩) ∧
        (jsTrim " Cup ").length ≠ 0 ∧ (jsTrim " Cup ").length ≤ 100 ∧
        lookupStock wStoreC9 "s1" = some ⟨none, "Old", ⟨2026, 2, 7⟩, 1, 0, 0⟩) ∧
      updateStock "s1" ⟨some "i1", some " Cup ", none, none⟩ wStoreC9 = .ok wStoreC9A) :=
  ⟨⟨⟨by decide, by decide, by decide⟩,
      (updateStock_itemName_precedence wStoreC9 "s1" "zz" " Cup ").1
        (by decide) (by decide) (by decide)⟩,
    ⟨⟨by decide, by decide, by decide, by decide⟩, by
      have h := (updateStock_itemName_precedence wStoreC9 "s1" "i1" " Cup ").2
        ⟨"i1", "Green Tea", none, 0⟩ ⟨none, "Old", ⟨2026, 2, 7⟩, 1, 0, 0⟩
        (by decide) (by decide) (by decide) (by decide) (by decide)
      rw [h]
      decide⟩⟩

/-!
## C2: snapshot semantics of stock creation and update
-/

theorem stockPayloadItemId_missing (iid : String) (s : Store)
    (hlen : (jsTrim iid).length ≠ 0)
    (hgi : getItemById (jsTrim iid) s = .ok none) :
    stockPayloadItemId (some iid) s =
      .error "指定されたitemIdの品名マスタが存在しません。" := by
  simp only [stockPayloadItemId]
  rw [if_neg hlen, hgi]

theorem resolveAddStockRef_byId_found (iid : String) (s : Store) (item : Item)
    (hlen : (jsTrim iid).length ≠ 0)
    (hgi : getItemById (jsTrim iid) s = .ok (some item)) :
    resolveAddStockRef ⟨some iid, none⟩ s = .ok (some item.id, item.name) := by
  have hne : iid ≠ "" := fun h0 => hlen (by rw [h0]; rfl)
  simp only [resolveAddStockRef, Option.getD]
  rw [if_pos (by simp only [truthy, decide_eq_true_eq]; exact hne)]
  rw [if_neg hlen, hgi]

theorem resolveAddStockRef_byId_missing (iid : String) (s : Store)
    (hlen : (jsTrim iid).length ≠ 0)
    (hgi : getItemById (jsTrim iid) s = .ok none) :
    resolveAddStockRef ⟨some iid, none⟩ s =
      .error "指定されたitemIdの品名マスタが存在しません。" := by
  have hne : iid ≠ "" := fun h0 => hlen (by rw [h0]; rfl)
  simp only [resolveAddStockRef, Option.getD]
  rw [if_pos (by simp only [truthy, decide_eq_true_eq]; exact hne)]
  rw [if_neg hlen, hgi]

theorem resolveAddStockRef_byName (nm : String) (s : Store)
    (h1 : (jsTrim nm).length ≠ 0) (h2 : (jsTrim nm).length ≤ 100) :
    resolveAddStockRef ⟨none, some nm⟩ s = .ok (none, jsTrim nm) := by
  have hne : nm ≠ "" := fun h0 => h1 (by rw [h0]; rfl)
  simp only [resolveAddStockRef, Option.getD]
  rw [if_neg (by simp [truthy])]
  rw [if_pos (by simp only [truthy, decide_eq_true_eq]; exact hne)]
  rw [if_neg h1, if_neg (by omega)]

def cStoreC2 : Store := ⟨[], [], 7, 0⟩

/-- Counterexample to claim C2 as stated: creating a Stock from the free-text
`itemName` `" milk "` does not store the given text; the stored
`itemNameSnapshot` is the trimmed `"milk"`. -/
theorem addStock_itemName_not_verbatim :
    addStock ⟨none, some " milk "⟩ "2026-02-07" (1 : Rat) cStoreC2 =
      .ok ("doc0", ⟨[], [("doc0", ⟨none, "milk", ⟨2026, 2, 7⟩, 1, 7, 7⟩)], 7, 1⟩) ∧
    ("milk" : String) ≠ " milk " := by decide

/-- Claim C2 (amended): creating a Stock with a resolvable `itemId` copies
the Item's current name into `itemNameSnapshot` and stores the Item's id;
creating with `itemName` stores the trimmed given text with `itemId = null`;
creating or updating with an `itemId` that does not resolve fails with the
reference-not-found error (so nothing is written). -/
theorem addStock_snapshot_semantics (s : Store) (iid nm date : String) (q : Rat) :
    (∀ item ts, (jsTrim iid).length ≠ 0 →
      getItemById (jsTrim iid) s = .ok (some item) →
      jsIsInteger q → 0 ≤ q →
      dateInputToTimestamp date = .ok ts →
      addStock ⟨some iid, none⟩ date q s =
        .ok (freshId s, { s with
          stocks := (freshId s, ⟨some item.id, item.name, ts, q, s.now, s.now⟩) :: s.stocks,
          nextId := s.nextId + 1 })) ∧
    (∀ ts, (jsTrim nm).length ≠ 0 → (jsTrim nm).length ≤ 100 →
      jsIsInteger q → 0 ≤ q →
      dateInputToTimestamp date = .ok ts →
      addStock ⟨none, some nm⟩ date q s =
        .ok (freshId s, { s with
          stocks := (freshId s, ⟨none, jsTrim nm, ts, q, s.now, s.now⟩) :: s.stocks,
          nextId := s.nextId + 1 })) ∧
    ((jsTrim iid).length ≠ 0 → jsIsInteger q → 0 ≤ q →
      getItemById (jsTrim iid) s = .ok none →
      addStock ⟨some iid, none⟩ date q s =
        .error "指定されたitemIdの品名マスタが存在しません。") ∧
    (∀ (u : UpdateStockInput) (id : String), jsTrim id ≠ "" → u.itemId = some iid →
      (jsTrim iid).length ≠ 0 →
      getItemById (jsTrim iid) s = .ok none →
      updateStock id u s = .error "指定されたitemIdの品名マスタが存在しません。") := by
  refine ⟨?_, ?_, ?_, ?_⟩
  · intro item ts hlen hgi hint hpos hdate
    unfold addStock
    rw [if_neg (by push_neg; exact ⟨hint, hpos⟩)]
    simp only [resolveAddStockRef_byId_found iid s item hlen hgi, hdate]
  · intro ts hn1 hn2 hint hpos hdate
    unfold addStock
    rw [if_neg (by push_neg; exact ⟨hint, hpos⟩)]
    simp only [resolveAddStockRef_byName nm s hn1 hn2, hdate]
  · intro hlen hint hpos hgi
    unfold addStock
    rw [if_neg (by push_neg; exact ⟨hint, hpos⟩)]
    simp only [resolveAddStockRef_byId_missing iid s hlen hgi]
  · intro u id hid hui hlen hgi
    unfold updateStock
    rw [if_neg hid, hui]
    simp only [stockPayloadItemId_missing iid s hlen hgi]

def wStoreC2 : Store := ⟨[("i1", ⟨"Matcha", none, 0⟩)], [], 8, 0⟩

theorem addStock_snapshot_semantics_witness :
    (((jsTrim "i1").length ≠ 0 ∧
        getItemById (jsTrim "i1") wStoreC2 = .ok (some ⟨"i1", "Matcha", none, 0⟩) ∧
        jsIsInteger (2 : Rat) ∧ (0 : Rat) ≤ 2 ∧
        dateInputToTimestamp "2026-02-07" = .ok ⟨2026, 2, 7⟩) ∧
      addStock ⟨some "i1", none⟩ "2026-02-07" (2 : Rat) wStoreC2 =
        .ok (freshId wStoreC2, { wStoreC2 with
          stocks := (freshId wStoreC2,
            ⟨some "i1", "Matcha", ⟨2026, 2, 7⟩, 2, wStoreC2.now, wStoreC2.now⟩) :: wStoreC2.stocks,
          nextId := wStoreC2.nextId + 1 })) ∧
    (((jsTrim " milk ").length ≠ 0 ∧ (jsTrim " milk ").length ≤ 100) ∧
      addStock ⟨none, some " milk "⟩ "2026-02-07" (2 : Rat) wStoreC2 =
        .ok (freshId wStoreC2, { wStoreC2 with
          stocks := (freshId wStoreC2,
            ⟨none, jsTrim " milk ", ⟨2026, 2, 7⟩, 2, wStoreC2.now, wStoreC2.now⟩) :: wStoreC2.stocks,
          nextId := wStoreC2.nextId + 1 })) ∧
    (((jsTrim "zz").length ≠ 0 ∧ getItemById (jsTrim "zz") wStoreC2 = .ok none) ∧
      addStock ⟨some "zz", none⟩ "2026-02-07" (2 : Rat) wStoreC2 =
        .error "指定されたitemIdの品名マスタが存在しません。") ∧
    ((jsTrim "s1" ≠ "" ∧
        (⟨some "zz", none, none, none⟩ : UpdateStockInput).itemId = some "zz") ∧
      updateStock "s1" ⟨some "zz", none, none, none⟩ wStoreC2 =
        .error "指定されたitemIdの品名マスタが存在しません。") :=
  ⟨⟨⟨by decide, by decide, by decide, by decide, by decide⟩,
      (addStock_snapshot_semantics wStoreC2 "i1" "x" "2026-02-07" (2 : Rat)).1
        ⟨"i1", "Matcha", none, 0⟩ ⟨2026, 2, 7⟩
        (by decide) (by decide) (by decide) (by decide) (by decide)⟩,
    ⟨⟨by decide, by decide⟩,
      (addStock_snapshot_semantics wStoreC2 "x" " milk " "2026-02-07" (2 : Rat)).2.1
        ⟨2026, 2, 7⟩ (by decide) (by decide) (by decide) (by decide) (by decide)⟩,
    ⟨⟨by decide, by decide⟩,
      (addStock_snapshot_semantics wStoreC2 "zz" "x" "2026-02-07" (2 : Rat)).2.2.1
        (by decide) (by decide) (by decide) (by decide)⟩,
    ⟨⟨by decide, by decide⟩,
      (addStock_snapshot_semantics wStoreC2 "zz" "x" "2026-02-07" (2 : Rat)).2.2.2
        ⟨some "zz", none, none, none⟩ "s1" (by decide) (by decide) (by decide) (by decide)⟩⟩

/-!
## C10: stored names are trimmed, validation works on the trimmed string
-/

theorem addItem_ok_inv {name : String} {img : Option String} {s : Store}
    {r : String × Store} (h : addItem name img s = .ok r) :
    r.2.items = (freshId s, ⟨jsTrim name, normalizeImageUrl img, s.now⟩) :: s.items ∧
      r.2.stocks = s.stocks := by
  unfold addItem at h
  split at h
  · exact absurd h (by simp)
  · split at h
    · exact absurd h (by simp)
    · cases h
      exact ⟨rfl, rfl⟩

theorem itemNamePayload_ok {n? : Option String} {p : Option String}
    (h : itemNamePayload n? = .ok p) :
    p = none ∨ ∃ n, n? = some n ∧ p = some (jsTrim n) := by
  unfold itemNamePayload at h
  split at h
  · cases h
    exact Or.inl rfl
  · rename_i n
    split at h
    · exact absurd h (by simp)
    · split at h
      · exact absurd h (by simp)
      · cases h
        exact Or.inr ⟨n, rfl, rfl⟩

theorem updateItem_ok_inv {id : String} {u : UpdateItemInput} {s s' : Store}
    (h : updateItem id u s = .ok s') :
    ∃ pName d, itemNamePayload u.name = .ok pName ∧ lookupItem s id = some d ∧
      s' = { s with items := replaceEntry s.items id ({ d with
        name := pName.getD d.name,
        imageUrl := (itemImagePayload u.imageUrl).getD d.imageUrl }) } := by
  unfold updateItem at h
  split at h
  · exact absurd h (by simp)
  · split at h
    · exact absurd h (by simp)
    · rename_i pName hp
      split at h
      · exact absurd h (by simp)
      · split at h
        · exact absurd h (by simp)
        · rename_i d hd
          cases h
          exact ⟨pName, d, hp, hd, rfl⟩

theorem getItemById_found {id : String} {s : Store} {item : Item}
    (h : getItemById id s = .ok (some item)) :
    ∃ d, lookupItem s id = some d ∧ item = ⟨id, d.name, d.imageUrl, d.createdAt⟩ := by
  unfold getItemById at h
  split at h
  · exact absurd h (by simp)
  · split at h
    · exact absurd h (by simp)
    · rename_i d hd
      split at h
      · exact absurd h (by simp)
      · rename_i it hit
        simp only [Except.ok.injEq, Option.some.injEq] at h
        subst h
        unfold toItem at hit
        split at hit
        · exact absurd hit (by simp)
        · simp only [Except.ok.injEq] at hit
          exact ⟨d, hd, hit.symm⟩

theorem addStock_ok_inv {ref : AddStockItemRef} {date : String} {q : Rat}
    {s : Store} {r : String × Store} (h : addStock ref date q s = .ok r) :
    ∃ rid snap ts, resolveAddStockRef ref s = .ok (rid, snap) ∧
      dateInputToTimestamp date = .ok ts ∧
      r.2.stocks = (freshId s, ⟨rid, snap, ts, q, s.now, s.now⟩) :: s.stocks ∧
      r.2.items = s.items := by
  unfold addStock at h
  split at h
  · exact absurd h (by simp)
  · split at h
    · exact absurd h (by simp)
    · rename_i rid snap hres
      split at h
      · exact absurd h (by simp)
      · rename_i ts hts
        cases h
        exact ⟨rid, snap, ts, hres, hts, rfl, rfl⟩

theorem resolveAddStockRef_ok_inv {ref : AddStockItemRef} {s : Store}
    {rid : Option String} {snap : String}
    (h : resolveAddStockRef ref s = .ok (rid, snap)) :
    (∃ item, getItemById (jsTrim (ref.itemId.getD "")) s = .ok (some item) ∧
      rid = some item.id ∧ snap = item.name) ∨
    (∃ nm, snap = jsTrim nm) := by
  unfold resolveAddStockRef at h
  split at h
  · split at h
    · exact absurd h (by simp)
    · split at h
      · exact absurd h (by simp)
      · exact absurd h (by simp)
      · rename_i item hitem
        simp only [Except.ok.injEq, Prod.mk.injEq] at h
        exact Or.inl ⟨item, hitem, h.1.symm, h.2.symm⟩
  · split at h
    · split at h
      · exact absurd h (by simp)
      · split at h
        · exact absurd h (by simp)
        · simp only [Except.ok.injEq, Prod.mk.injEq] at h
          exact Or.inr ⟨(ref.itemName.getD ""), h.2.symm⟩
    · exact absurd h (by simp)

theorem stockPayloadItemId_ok {raw? : Option String} {s : Store}
    {p1 : Option (Option String) × Option String}
    (h : stockPayloadItemId raw? s = .ok p1) :
    p1 = (none, none) ∨
      ∃ raw item, raw? = some raw ∧
        getItemById (jsTrim raw) s = .ok (some item) ∧
        p1 = (some (some item.id), some item.name) := by
  unfold stockPayloadItemId at h
  split at h
  · cases h
    exact Or.inl rfl
  · rename_i raw
    split at h
    · exact absurd h (by simp)
    · split at h
      · exact absurd h (by simp)
      · exact absurd h (by simp)
      · rename_i item hitem
        cases h
        exact Or.inr ⟨raw, item, rfl, hitem, rfl⟩

theorem stockPayloadItemName_ok {raw? : Option String}
    {p1 p2 : Option (Option String) × Option String}
    (h : stockPayloadItemName raw? p1 = .ok p2) :
    p2 = p1 ∨ ∃ nm, p2 = (some none, some (jsTrim nm)) := by
  unfold stockPayloadItemName at h
  split at h
  · cases h
    exact Or.inl rfl
  · rename_i nm
    split at h
    · exact absurd h (by simp)
    · split at h
      · exact absurd h (by simp)
      · cases h
        exact Or.inr ⟨nm, rfl⟩

/-- The trimming invariant: every stored Item name and Stock name snapshot is
a fixed point of `jsTrim`, i.e. carries no surrounding whitespace. -/
@[reducible] def trimmedNames (s : Store) : Prop :=
  (∀ p ∈ s.items, jsTrim p.2.name = p.2.name) ∧
  (∀ p ∈ s.stocks, jsTrim p.2.itemNameSnapshot = p.2.itemNameSnapshot)

/-- Claim C10: every name written by `addItem`, `updateItem`, `addStock` or
`updateStock` is trimmed before storage (the trimming invariant is
preserved), a whitespace-only name is rejected as empty, and the
100-character limit is applied to the trimmed string. -/
theorem names_trimmed (s : Store) :
    (∀ name img r, trimmedNames s → addItem name img s = .ok r → trimmedNames r.2) ∧
    (∀ id u s', trimmedNames s → updateItem id u s = .ok s' → trimmedNames s') ∧
    (∀ ref date q r, trimmedNames s → addStock ref date q s = .ok r → trimmedNames r.2) ∧
    (∀ id u s', trimmedNames s → updateStock id u s = .ok s' → trimmedNames s') ∧
    (∀ name img, jsTrim name = "" →
      addItem name img s = .error "品名は必須です。") ∧
    (∀ name img, (jsTrim name).length > 100 →
      addItem name img s = .error "品名は100文字以内で入力してください。") ∧
    (∀ id u n, jsTrim id ≠ "" → u.name = some n → jsTrim n = "" →
      updateItem id u s = .error "品名は空文字にできません。") ∧
    (∀ id u n, jsTrim id ≠ "" → u.name = some n → (jsTrim n).length > 100 →
      updateItem id u s = .error "品名は100文字以内で入力してください。") ∧
    (∀ nm date q, jsIsInteger q → 0 ≤ q → nm ≠ "" → jsTrim nm = "" →
      addStock ⟨none, some nm⟩ date q s = .error "itemNameは空文字にできません。") ∧
    (∀ nm date q, jsIsInteger q → 0 ≤ q → (jsTrim nm).length > 100 →
      addStock ⟨none, some nm⟩ date q s = .error "itemNameは100文字以内で入力してください。") ∧
    (∀ id u n, jsTrim id ≠ "" → u.itemId = none → u.itemName = some n →
      jsTrim n = "" → updateStock id u s = .error "itemNameは空文字にできません。") ∧
    (∀ id u n, jsTrim id ≠ "" → u.itemId = none → u.itemName = some n →
      (jsTrim n).length > 100 →
      updateStock id u s = .error "itemNameは100文字以内で入力してください。") := by
  refine ⟨?_, ?_, ?_, ?_, ?_, ?_, ?_, ?_, ?_, ?_, ?_, ?_⟩
  · intro name img r hinv hok
    obtain ⟨hitems, hstocks⟩ := addItem_ok_inv hok
    constructor
    · intro p hp
      rw [hitems] at hp
      rcases List.mem_cons.mp hp with hnew | hold
      · rw [hnew]
        exact jsTrim_idem name
      · exact hinv.1 p hold
    · intro p hp
      rw [hstocks] at hp
      exact hinv.2 p hp
  · intro id u s' hinv hok
    obtain ⟨pName, d, hp, hd, rfl⟩ := updateItem_ok_inv hok
    constructor
    · intro p hp2
      simp only [] at hp2
      rcases mem_replaceEntry hp2 with hpd | hold
      · rw [hpd]
        rcases itemNamePayload_ok hp with hnone | ⟨n, _, hsome⟩
        · subst hnone
          simpa [Option.getD] using hinv.1 (id, d) (lookup_mem hd)
        · subst hsome
          simpa [Option.getD] using jsTrim_idem n
      · exact hinv.1 p hold
    · intro p hp2
      exact hinv.2 p hp2
  · intro ref date q r hinv hok
    obtain ⟨rid, snap, ts, hres, _, hstocks, hitems⟩ := addStock_ok_inv hok
    constructor
    · intro p hp
      rw [hitems] at hp
      exact hinv.1 p hp
    · intro p hp
      rw [hstocks] at hp
      rcases List.mem_cons.mp hp with hnew | hold
      · rw [hnew]
        rcases resolveAddStockRef_ok_inv hres with ⟨item, hgi, _, hsnap⟩ | ⟨nm, hsnap⟩
        · subst hsnap
          obtain ⟨d, hld, hitem⟩ := getItemById_found hgi
          rw [hitem]
          exact hinv.1 _ (lookup_mem hld)
        · subst hsnap
          exact jsTrim_idem nm
      · exact hinv.2 p hold
  · intro id u s' hinv hok
    obtain ⟨p2, pExp, pQ, d, ⟨p1, h1, h2⟩, _, _, hd, rfl⟩ := updateStock_ok_inv hok
    constructor
    · intro p hp
      exact hinv.1 p hp
    · intro p hp
      simp only [] at hp
      rcases mem_replaceEntry hp with hpd | hold
      · rw [hpd]
        rcases stockPayloadItemName_ok h2 with rfl | ⟨nm, rfl⟩
        · rcases stockPayloadItemId_ok h1 with rfl | ⟨raw, item, _, hgi, rfl⟩
          · simpa [Option.getD] using hinv.2 (id, d) (lookup_mem hd)
          · obtain ⟨dd, hld, hitem⟩ := getItemById_found hgi
            simp only [Option.getD]
            rw [hitem]
            exact hinv.1 _ (lookup_mem hld)
        · simpa [Option.getD] using jsTrim_idem nm
      · exact hinv.2 p hold
  · intro name img hn
    unfold addItem
    rw [if_pos (by rw [hn]; rfl)]
  · intro name img hn
    unfold addItem
    rw [if_neg (by omega), if_pos hn]
  · intro id u n hid hu hn
    have hp : itemNamePayload u.name = .error "品名は空文字にできません。" := by
      rw [hu]
      simp only [itemNamePayload]
      rw [if_pos (by rw [hn]; rfl)]
    unfold updateItem
    rw [if_neg hid]
    simp only [hp]
  · intro id u n hid hu hn
    have hp : itemNamePayload u.name = .error "品名は100文字以内で入力してください。" := by
      rw [hu]
      simp only [itemNamePayload]
      rw [if_neg (by omega), if_pos hn]
    unfold updateItem
    rw [if_neg hid]
    simp only [hp]
  · intro nm date q hint hpos hne hn
    have hres : resolveAddStockRef ⟨none, some nm⟩ s =
        .error "itemNameは空文字にできません。" := by
      simp only [resolveAddStockRef, Option.getD]
      rw [if_neg (by simp [truthy])]
      rw [if_pos (by simp only [truthy, decide_eq_true_eq]; exact hne)]
      rw [if_pos (by rw [hn]; rfl)]
    unfold addStock
    rw [if_neg (by push_neg; exact ⟨hint, hpos⟩)]
    simp only [hres]
  · intro nm date q hint hpos hn
    have hne : nm ≠ "" := by
      intro h0
      rw [h0] at hn
      revert hn
      decide
    have hres : resolveAddStockRef ⟨none, some nm⟩ s =
        .error "itemNameは100文字以内で入力してください。" := by
      simp only [resolveAddStockRef, Option.getD]
      rw [if_neg (by simp [truthy])]
      rw [if_pos (by simp only [truthy, decide_eq_true_eq]; exact hne)]
      rw [if_neg (by omega), if_pos hn]
    unfold addStock
    rw [if_neg (by push_neg; exact ⟨hint, hpos⟩)]
    simp only [hres]
  · intro id u n hid hui hun hn
    have h2e : stockPayloadItemName (some n) (none, none) =
        .error "itemNameは空文字にできません。" := by
      simp only [stockPayloadItemName]
      rw [if_pos (by rw [hn]; rfl)]
    unfold updateStock
    rw [if_neg hid, hui]
    simp only [stockPayloadItemId]
    rw [hun]
    simp only [h2e]
  · intro id u n hid hui hun hn
    have h2e : stockPayloadItemName (some n) (none, none) =
        .error "itemNameは100文字以内で入力してください。" := by
      simp only [stockPayloadItemName]
      rw [if_neg (by omega), if_pos hn]
    unfold updateStock
    rw [if_neg hid, hui]
    simp only [stockPayloadItemId]
    rw [hun]
    simp only [h2e]

def wStoreC10 : Store :=
  ⟨[("i1", ⟨"Matcha", none, 0⟩)],
   [("s1", ⟨none, "Tea", ⟨2026, 2, 7⟩, 1, 0, 0⟩)], 9, 0⟩

def wStoreC10A : Store :=
  ⟨[("doc0", ⟨"Soap", none, 9⟩), ("i1", ⟨"Matcha", none, 0⟩)],
   [("s1", ⟨none, "Tea", ⟨2026, 2, 7⟩, 1, 0, 0⟩)], 9, 1⟩

theorem names_trimmed_witness :
    ((trimmedNames wStoreC10 ∧
        addItem " Soap " none wStoreC10 = .ok ("doc0", wStoreC10A)) ∧
      trimmedNames wStoreC10A) ∧
    (jsTrim "   " = "" ∧
      addItem "   " none wStoreC10 = .error "品名は必須です。") ∧
    ((jsTrim "s1" ≠ "" ∧
        (⟨none, some "   ", none, none⟩ : UpdateStockInput).itemId = none ∧
        (⟨none, some "   ", none, none⟩ : UpdateStockInput).itemName = some "   " ∧
        jsTrim "   " = "") ∧
      updateStock "s1" ⟨none, some "   ", none, none⟩ wStoreC10 =
        .error "itemNameは空文字にできません。") :=
  ⟨⟨⟨by decide, by decide⟩,
      (names_trimmed wStoreC10).1 " Soap " none ("doc0", wStoreC10A)
        (by decide) (by decide)⟩,
    ⟨by decide,
      (names_trimmed wStoreC10).2.2.2.2.1 "   " none (by decide)⟩,
    ⟨⟨by decide, by decide, by decide, by decide⟩,
      (names_trimmed wStoreC10).2.2.2.2.2.2.2.2.2.2.1 "s1"
        ⟨none, some "   ", none, none⟩ "   " (by decide) (by decide) (by decide)
        (by decide)⟩⟩

/-!
## C7: listings are sorted by their designated keys
-/

theorem charLeb_cons_iff {a b : Char} {as bs : List Char} :
    charLeb (a :: as) (b :: bs) = true ↔
      a < b ∨ (a = b ∧ charLeb as bs = true) := by
  have hstep : charLeb (a :: as) (b :: bs) =
      if a < b then true else if b < a then false else charLeb as bs := rfl
  rw [hstep]
  rcases lt_trichotomy a b with h | h | h
  · rw [if_pos h]
    simp [h]
  · subst h
    rw [if_neg (lt_irrefl a), if_neg (lt_irrefl a)]
    simp
  · rw [if_neg (not_lt_of_gt h), if_pos h]
    simp [not_lt_of_gt h, ne_of_gt h]

theorem charLeb_total : ∀ x y : List Char, charLeb x y = true ∨ charLeb y x = true := by
  intro x
  induction x with
  | nil => intro y; exact Or.inl rfl
  | cons a as ih =>
    intro y
    cases y with
    | nil => exact Or.inr rfl
    | cons b bs =>
      rcases lt_trichotomy a b with h | h | h
      · exact Or.inl (charLeb_cons_iff.mpr (Or.inl h))
      · rcases ih bs with hl | hr
        · exact Or.inl (charLeb_cons_iff.mpr (Or.inr ⟨h, hl⟩))
        · exact Or.inr (charLeb_cons_iff.mpr (Or.inr ⟨h.symm, hr⟩))
      · exact Or.inr (charLeb_cons_iff.mpr (Or.inl h))

theorem charLeb_trans : ∀ x y z : List Char,
    charLeb x y = true → charLeb y z = true → charLeb x z = true := by
  intro x
  induction x with
  | nil => intro y z h1 h2; rfl
  | cons a as ih =>
    intro y z h1 h2
    cases y with
    | nil => exact absurd h1 (by simp [charLeb])
    | cons b bs =>
      cases z with
      | nil => exact absurd h2 (by simp [charLeb])
      | cons c cs =>
        rcases charLeb_cons_iff.mp h1 with hab | ⟨hab, h1'⟩
        · rcases charLeb_cons_iff.mp h2 with hbc | ⟨hbc, _⟩
          · exact charLeb_cons_iff.mpr (Or.inl (lt_trans hab hbc))
          · exact charLeb_cons_iff.mpr (Or.inl (hbc ▸ hab))
        · rcases charLeb_cons_iff.mp h2 with hbc | ⟨hbc, h2'⟩
          · exact charLeb_cons_iff.mpr (Or.inl (hab ▸ hbc))
          · exact charLeb_cons_iff.mpr (Or.inr ⟨hab.trans hbc, ih bs cs h1' h2'⟩)

instance : IsTotal (String × ItemDoc) itemNameRel :=
  ⟨fun a b => charLeb_total a.2.name.data b.2.name.data⟩

instance : IsTrans (String × ItemDoc) itemNameRel :=
  ⟨fun a b c hab hbc => charLeb_trans a.2.name.data b.2.name.data c.2.name.data hab hbc⟩

instance : IsTotal (String × StockDoc) stockExpiryRel :=
  ⟨fun a b => le_total (tsKey a.2.expiryDate) (tsKey b.2.expiryDate)⟩

instance : IsTrans (String × StockDoc) stockExpiryRel :=
  ⟨fun _ _ _ hab hbc => le_trans hab hbc⟩

theorem toItem_ok {id : String} {d : ItemDoc} {it : Item}
    (h : toItem id d = .ok it) : it = ⟨id, d.name, d.imageUrl, d.createdAt⟩ := by
  unfold toItem at h
  split at h
  · exact absurd h (by simp)
  · simp only [Except.ok.injEq] at h
    exact h.symm

theorem toStock_ok {id : String} {d : StockDoc} {st : Stock}
    (h : toStock id d = .ok st) :
    st = ⟨id, d.itemId, d.itemNameSnapshot, d.expiryDate, d.quantity,
          d.createdAt, d.updatedAt⟩ := by
  unfold toStock at h
  split at h
  · exact absurd h (by simp)
  · split at h
    · exact absurd h (by simp)
    · simp only [Except.ok.injEq] at h
      exact h.symm

theorem mapExcept_toItem_ok : ∀ {l : List (String × ItemDoc)} {r : List Item},
    mapExcept (fun p => toItem p.1 p.2) l = .ok r →
    r.map (fun it => (it.id, (⟨it.name, it.imageUrl, it.createdAt⟩ : ItemDoc))) = l := by
  intro l
  induction l with
  | nil =>
    intro r h
    cases h
    rfl
  | cons p t ih =>
    intro r h
    unfold mapExcept at h
    split at h
    · exact absurd h (by simp)
    · rename_i it hti
      split at h
      · exact absurd h (by simp)
      · rename_i xs hm
        cases h
        rw [List.map_cons, ih hm, toItem_ok hti]

theorem mapExcept_toStock_ok : ∀ {l : List (String × StockDoc)} {r : List Stock},
    mapExcept (fun p => toStock p.1 p.2) l = .ok r →
    r.map (fun st => (st.id, (⟨st.itemId, st.itemNameSnapshot, st.expiryDate,
      st.quantity, st.createdAt, st.updatedAt⟩ : StockDoc))) = l := by
  intro l
  induction l with
  | nil =>
    intro r h
    cases h
    rfl
  | cons p t ih =>
    intro r h
    unfold mapExcept at h
    split at h
    · exact absurd h (by simp)
    · rename_i st hti
      split at h
      · exact absurd h (by simp)
      · rename_i xs hm
        cases h
        rw [List.map_cons, ih hm, toStock_ok hti]

/-- Claim C7: whenever `listItems` (resp. `listStocks`) succeeds, it returns
exactly the stored records (as a permutation of the collection) ordered by
`name` (resp. by `expiryDate`) ascending, whatever the insertion order in the
store was. -/
theorem listings_sorted (s : Store) :
    (∀ l, listItems s = .ok l →
      (l.map fun it => (it.id, (⟨it.name, it.imageUrl, it.createdAt⟩ : ItemDoc))).Perm
        s.items ∧
      l.Pairwise fun a b => strLe a.name b.name) ∧
    (∀ l, listStocks s = .ok l →
      (l.map fun st => (st.id, (⟨st.itemId, st.itemNameSnapshot, st.expiryDate,
        st.quantity, st.createdAt, st.updatedAt⟩ : StockDoc))).Perm s.stocks ∧
      l.Pairwise fun a b => tsKey a.expiryDate ≤ tsKey b.expiryDate) := by
  constructor
  · intro l h
    unfold listItems at h
    have hmap := mapExcept_toItem_ok h
    constructor
    · rw [hmap]
      exact List.perm_insertionSort itemNameRel s.items
    · have hs : List.Sorted itemNameRel (List.insertionSort itemNameRel s.items) :=
        List.sorted_insertionSort itemNameRel s.items
      rw [← hmap] at hs
      have hp := List.pairwise_map.mp hs
      exact hp
  · intro l h
    unfold listStocks at h
    have hmap := mapExcept_toStock_ok h
    constructor
    · rw [hmap]
      exact List.perm_insertionSort stockExpiryRel s.stocks
    · have hs : List.Sorted stockExpiryRel
          (List.insertionSort stockExpiryRel s.stocks) :=
        List.sorted_insertionSort stockExpiryRel s.stocks
      rw [← hmap] at hs
      have hp := List.pairwise_map.mp hs
      exact hp

def wStoreC7 : Store :=
  ⟨[("i1", ⟨"Beta", none, 0⟩), ("i2", ⟨"Alpha", none, 0⟩)],
   [("s1", ⟨none, "B", ⟨2027, 1, 1⟩, 1, 0, 0⟩), ("s2", ⟨none, "A", ⟨2026, 5, 1⟩, 2, 0, 0⟩)],
   0, 0⟩

theorem listings_sorted_witness :
    (listItems wStoreC7 =
        .ok [⟨"i2", "Alpha", none, 0⟩, ⟨"i1", "Beta", none, 0⟩] ∧
      (([⟨"i2", "Alpha", none, 0⟩, ⟨"i1", "Beta", none, 0⟩] : List Item).map
          fun it => (it.id, (⟨it.name, it.imageUrl, it.createdAt⟩ : ItemDoc))).Perm
        wStoreC7.items ∧
      ([⟨"i2", "Alpha", none, 0⟩, ⟨"i1", "Beta", none, 0⟩] : List Item).Pairwise
        (fun a b => strLe a.name b.name)) ∧
    (listStocks wStoreC7 =
        .ok [⟨"s2", none, "A", ⟨2026, 5, 1⟩, 2, 0, 0⟩, ⟨"s1", none, "B", ⟨2027, 1, 1⟩, 1, 0, 0⟩] ∧
      (([⟨"s2", none, "A", ⟨2026, 5, 1⟩, 2, 0, 0⟩,
          ⟨"s1", none, "B", ⟨2027, 1, 1⟩, 1, 0, 0⟩] : List Stock).map
          fun st => (st.id, (⟨st.itemId, st.itemNameSnapshot, st.expiryDate,
            st.quantity, st.createdAt, st.updatedAt⟩ : StockDoc))).Perm wStoreC7.stocks ∧
      ([⟨"s2", none, "A", ⟨2026, 5, 1⟩, 2, 0, 0⟩,
        ⟨"s1", none, "B", ⟨2027, 1, 1⟩, 1, 0, 0⟩] : List Stock).Pairwise
        (fun a b => tsKey a.expiryDate ≤ tsKey b.expiryDate)) :=
  ⟨⟨by decide,
      (listings_sorted wStoreC7).1 [⟨"i2", "Alpha", none, 0⟩, ⟨"i1", "Beta", none, 0⟩]
        (by decide)⟩,
    ⟨by decide,
      (listings_sorted wStoreC7).2
        [⟨"s2", none, "A", ⟨2026, 5, 1⟩, 2, 0, 0⟩, ⟨"s1", none, "B", ⟨2027, 1, 1⟩, 1, 0, 0⟩]
        (by decide)⟩⟩

/-!
## C6: the calendar-date round trip
-/

theorem digitChar_digitVal {c : Char} {v : Nat} (h : digitVal c = some v) :
    digitChar v = c := by
  unfold digitVal at h
  repeat' split at h
  all_goals cases h
  all_goals (rename_i hc; rw [hc]; rfl)

theorem digitVal_lt {c : Char} {v : Nat} (h : digitVal c = some v) : v < 10 := by
  unfold digitVal at h
  repeat' split at h
  all_goals cases h
  all_goals omega

theorem natDigits_four {va vb vc vd : Nat} (ha : va < 10) (hb : vb < 10)
    (hc : vc < 10) (hd : vd < 10) (h1 : 1 ≤ va) :
    natDigits (((va * 10 + vb) * 10 + vc) * 10 + vd) =
      [digitChar va, digitChar vb, digitChar vc, digitChar vd] := by
  rw [natDigits_step, if_neg (by omega)]
  rw [show (((va * 10 + vb) * 10 + vc) * 10 + vd) / 10 = (va * 10 + vb) * 10 + vc from by
    omega]
  rw [show (((va * 10 + vb) * 10 + vc) * 10 + vd) % 10 = vd from by omega]
  rw [natDigits_step, if_neg (by omega)]
  rw [show ((va * 10 + vb) * 10 + vc) / 10 = va * 10 + vb from by omega]
  rw [show ((va * 10 + vb) * 10 + vc) % 10 = vc from by omega]
  rw [natDigits_step, if_neg (by omega)]
  rw [show (va * 10 + vb) / 10 = va from by omega]
  rw [show (va * 10 + vb) % 10 = vb from by omega]
  rw [natDigits_step, if_pos (by omega)]
  rfl

theorem jsIntToString_nat (n : Nat) : jsIntToString (n : Int) = jsNatToString n := by
  unfold jsIntToString
  rw [if_neg (by omega)]
  norm_num

theorem twoDigits {ve vf : Nat} (he : ve < 10) (hf : vf < 10) :
    pad2 (jsIntToString ((ve * 10 + vf : Nat) : Int)) =
      ⟨[digitChar ve, digitChar vf]⟩ := by
  rw [jsIntToString_nat]
  by_cases h0 : ve = 0
  · subst h0
    unfold jsNatToString
    rw [show 0 * 10 + vf = vf from by omega]
    rw [natDigits_step, if_pos hf]
    unfold pad2
    rw [show (⟨[digitChar vf]⟩ : String).length = 1 from rfl]
    rw [if_pos (by omega)]
    rfl
  · unfold jsNatToString
    rw [natDigits_step, if_neg (by omega)]
    rw [show (ve * 10 + vf) / 10 = ve from by omega]
    rw [show (ve * 10 + vf) % 10 = vf from by omega]
    rw [natDigits_step, if_pos he]
    unfold pad2
    rw [show (⟨[digitChar ve] ++ [digitChar vf]⟩ : String).length = 2 from rfl]
    rw [if_neg (by omega)]
    rfl

theorem dateParts_inv {s : String} {y m d : Nat} (h : dateParts s = some (y, m, d)) :
    ∃ a b c d1 e f g k va vb vc vd ve vf vg vk,
      s.data = [a, b, c, d1, '-', e, f, '-', g, k] ∧
      digitVal a = some va ∧ digitVal b = some vb ∧ digitVal c = some vc ∧
      digitVal d1 = some vd ∧ digitVal e = some ve ∧ digitVal f = some vf ∧
      digitVal g = some vg ∧ digitVal k = some vk ∧
      y = ((va * 10 + vb) * 10 + vc) * 10 + vd ∧ m = ve * 10 + vf ∧
      d = vg * 10 + vk := by
  unfold dateParts at h
  split at h
  · rename_i a b c d1 h1 e f h2 g k hdata
    split at h
    · rename_i va vb vc vd ve vf vg vk eqa eqb eqc eqd eqe eqf eqg eqk
      simp only [Option.some.injEq, Prod.mk.injEq] at h
      exact ⟨a, b, c, d1, e, f, g, k, va, vb, vc, vd, ve, vf, vg, vk, hdata,
        eqa, eqb, eqc, eqd, eqe, eqf, eqg, eqk, h.1.symm, h.2.1.symm, h.2.2.symm⟩
    · exact absurd h (by simp)
  · exact absurd h (by simp)

/-- Counterexample to claim C6 as stated: `"0150-01-02"` is accepted by the
date validation, but its round trip yields `"150-01-02"` because
`timestampToDateInput` does not pad the year to four digits. -/
theorem date_roundtrip_counterexample :
    assertValidDateInput "0150-01-02" = .ok () ∧
    dateInputToTimestamp "0150-01-02" = .ok ⟨150, 1, 2⟩ ∧
    timestampToDateInput ⟨150, 1, 2⟩ = "150-01-02" ∧
    ("150-01-02" : String) ≠ "0150-01-02" := by decide

/-- Claim C6 (amended): for every date string accepted by the validation
whose year is at least 1000 — in particular `"2026-02-07"` — converting with
`dateInputToTimestamp` and back with `timestampToDateInput` returns the
original string exactly.  (Accepted strings with years 100–999 lose their
leading zero on the way back.) -/
theorem date_roundtrip (s : String) (t : Timestamp)
    (h : dateInputToTimestamp s = .ok t) (hy : 1000 ≤ t.year) :
    timestampToDateInput t = s := by
  unfold dateInputToTimestamp at h
  split at h
  · exact absurd h (by simp)
  · rename_i u hv
    split at h
    · exact absurd h (by simp)
    · rename_i y m d hdp
      cases h
      obtain ⟨a, b, c, d1, e, f, g, k, va, vb, vc, vd, ve, vf, vg, vk, hdata,
        ha, hb, hc, hd1, he, hf, hg, hk, hy', hm', hd'⟩ := dateParts_inv hdp
      have hval : (jsMakeDate (y : Int) ((m : Int) - 1) (d : Int)).year = (y : Int) ∧
          (jsMakeDate (y : Int) ((m : Int) - 1) (d : Int)).month = (m : Int) ∧
          (jsMakeDate (y : Int) ((m : Int) - 1) (d : Int)).day = (d : Int) := by
        unfold assertValidDateInput at hv
        rw [hdp] at hv
        simp only [] at hv
        split at hv
        · assumption
        · exact absurd hv (by simp)
      obtain ⟨hcy, hcm, hcd⟩ := hval
      rw [hcy] at hy
      unfold timestampToDateInput
      rw [hcy, hcm, hcd]
      subst hy' hm' hd'
      have hyn : 1000 ≤ ((va * 10 + vb) * 10 + vc) * 10 + vd := by omega
      have hva := digitVal_lt ha
      have hvb := digitVal_lt hb
      have hvc := digitVal_lt hc
      have hvd := digitVal_lt hd1
      have hve := digitVal_lt he
      have hvf := digitVal_lt hf
      have hvg := digitVal_lt hg
      have hvk := digitVal_lt hk
      rw [jsIntToString_nat]
      unfold jsNatToString
      rw [natDigits_four hva hvb hvc hvd (by omega)]
      rw [twoDigits hve hvf, twoDigits hvg hvk]
      rw [digitChar_digitVal ha, digitChar_digitVal hb, digitChar_digitVal hc,
        digitChar_digitVal hd1, digitChar_digitVal he, digitChar_digitVal hf,
        digitChar_digitVal hg, digitChar_digitVal hk]
      cases s with
      | mk sd =>
        simp only [] at hdata
        rw [hdata]
        rfl

theorem date_roundtrip_witness :
    (dateInputToTimestamp "2026-02-07" = .ok ⟨2026, 2, 7⟩ ∧
      (1000 : Int) ≤ (⟨2026, 2, 7⟩ : Timestamp).year) ∧
    timestampToDateInput ⟨2026, 2, 7⟩ = "2026-02-07" :=
  ⟨⟨by decide, by decide⟩,
    date_roundtrip "2026-02-07" ⟨2026, 2, 7⟩ (by decide) (by decide)⟩

end Cupnudle
